import Mathlib

/-!
Shallow embedding of the submission dispatch-and-reconciliation pipeline of
the Cloudemy backend, translated from:
  backend/app/routers/submissions.py  (intake, finalize)
  backend/app/routers/internal.py     (result reconciliation callback)
  scheduler/scheduler.py              (queue pop and worker admission loop)
  runner/runner.py                    (worker execute/report protocol)

The MongoDB `submissions` collection is modelled as a list of documents;
`find_one` is `List.find?` on the filter predicate and `update_one` updates
the first matching document.  Redis hashes are association lists; external
I/O outcomes (HTTP calls, the LLM evaluator, JSON parsing of queue
messages) are oracle inputs to the pure model.
-/

/-- Mirror of the Pydantic `FeedbackItem` model (both routers declare the
same shape: a `case` label and a `message`). -/
structure FeedbackItem where
  case : String
  message : String
deriving DecidableEq, Repr

/-- Mirror of the Pydantic `Metrics` / `MetricsIn` models. -/
structure Metrics where
  timeMs : Int := 0
  memoryMB : Int := 0
deriving DecidableEq, Repr

/-- Mirror of `ResultIn` in internal.py: the body of the worker's result
callback. -/
structure ResultIn where
  status : String
  score : Int := 0
  fail_tags : List String := []
  feedback : List FeedbackItem := []
  metrics : Metrics := {}
deriving DecidableEq, Repr

/-- Mirror of `OkOut` in internal.py. -/
structure OkOut where
  ok : Bool := true
  submission_id : String
  status : String
deriving DecidableEq, Repr

/-- Mirror of `FinalizeOut` in submissions.py. -/
structure FinalizeOut where
  submission_id : String
  status : String := "FINALIZED"
  finalized : Bool := true
deriving DecidableEq, Repr

/-- Mirror of `SubmissionQueued` in submissions.py. -/
structure SubmissionQueued where
  submission_id : String
  status : String := "QUEUED"
  attempt : Nat := 1
  created_at : Nat
deriving DecidableEq, Repr

/-- An HTTPException: status code plus detail string. -/
structure HErr where
  status_code : Nat
  detail : String
deriving DecidableEq, Repr

/-- The MongoDB document for one submission, mirroring the dict literal
built in `create_submission` (submissions.py) plus the fields later set by
the reconciler (`updated_at`) and the finalizer (`finalize_note`).
Timestamps are abstracted to naturals; the float `score` to an integer. -/
structure SubmissionDoc where
  _id : String
  user_id : String
  language : String
  code : String
  status : String
  score : Int
  fail_tags : List String
  feedback : List FeedbackItem
  metrics : Metrics
  finalized : Bool
  attempt : Nat
  created_at : Nat
  updated_at : Option Nat
  finalize_note : Option (Option String)
deriving DecidableEq, Repr

/-- Update the first element of a list satisfying `p` (MongoDB
`update_one`: at most one document is modified). -/
def updateFirst {α : Type} (p : α → Bool) (f : α → α) : List α → List α
  | [] => []
  | d :: ds => if p d then f d :: ds else d :: updateFirst p f ds

/-- Mongo filter `{"_id": submission_id}`. -/
def idMatch (submission_id : String) (d : SubmissionDoc) : Bool :=
  d._id == submission_id

/-- Mongo filter `{"user_id": u, "finalized": True}` used by the
finalizer's one-finalized-per-owner check. -/
def finMatch (u : String) (d : SubmissionDoc) : Bool :=
  d.user_id == u && d.finalized

/-- Mongo filter `{"_id": submission_id, "finalized": {"$ne": True}}`
guarding both conditional writes. -/
def updMatch (submission_id : String) (d : SubmissionDoc) : Bool :=
  d._id == submission_id && !d.finalized

/-- Python's `str.upper()`, character by character (the ASCII mapping is
all the status vocabulary exercises). -/
def pyUpper (s : String) : String := ⟨s.toList.map Char.toUpper⟩

/-- Status normalization from internal.py lines 71-78: uppercase the
incoming status and map the `SUCCESS` / `SUCCESSED` synonyms to
`COMPLETED`. -/
def normalizeStatus (s : String) : String :=
  let incoming := pyUpper s
  if incoming == "SUCCESS" || incoming == "SUCCESSED" then "COMPLETED" else incoming

/-- The `$set` document of the reconciler's conditional write
(internal.py lines 83-97). -/
def reconcileApply (payload : ResultIn) (now : Nat) (d : SubmissionDoc) : SubmissionDoc :=
  { d with
    status := normalizeStatus payload.status
    score := payload.score
    fail_tags := payload.fail_tags
    feedback := payload.feedback
    metrics := payload.metrics
    updated_at := some now }

/-- `post_result_callback` from internal.py: the result reconciliation
endpoint `POST /api/internal/submissions/{id}/result`.  Returns the HTTP
outcome together with the collection after the call.  `resultToken` is the
`INTERNAL_RESULT_TOKEN` environment value; `x_result_token` the request
header (absent or empty fails the truthiness check `not x_result_token`). -/
def post_result_callback (resultToken : String) (now : Nat)
    (submission_id : String) (payload : ResultIn) (x_result_token : Option String)
    (store : List SubmissionDoc) : Except HErr OkOut × List SubmissionDoc :=
  match x_result_token with
  | none => (.error ⟨401, "invalid result token"⟩, store)
  | some tok =>
    if tok = "" ∨ tok ≠ resultToken then (.error ⟨401, "invalid result token"⟩, store)
    else
      match store.find? (idMatch submission_id) with
      | none => (.error ⟨404, "submission not found"⟩, store)
      | some doc =>
        if doc.finalized || doc.status == "FINALIZED" then
          (.ok ⟨true, submission_id, doc.status⟩, store)
        else if normalizeStatus payload.status ∈ (["COMPLETED", "FAILED", "TIMEOUT"] : List String) then
          if (store.find? (updMatch submission_id)).isSome then
            (.ok ⟨true, submission_id, normalizeStatus payload.status⟩,
             updateFirst (updMatch submission_id) (reconcileApply payload now) store)
          else
            match (updateFirst (updMatch submission_id) (reconcileApply payload now) store).find?
                (idMatch submission_id) with
            | some d =>
              (.ok ⟨true, submission_id, d.status⟩,
               updateFirst (updMatch submission_id) (reconcileApply payload now) store)
            | none =>
              (.error ⟨500, "internal server error"⟩,
               updateFirst (updMatch submission_id) (reconcileApply payload now) store)
        else
          (.error ⟨400, "invalid status: " ++ normalizeStatus payload.status⟩, store)

/-- The `$set` document of the finalizer's conditional write
(submissions.py lines 248-255). -/
def finalizeApply (note : Option String) (d : SubmissionDoc) : SubmissionDoc :=
  { d with status := "FINALIZED", finalized := true, finalize_note := some note }

/-- `finalize_submission` from submissions.py: the endpoint
`POST /api/submissions/{id}/finalize`. -/
def finalize_submission (submission_id : String) (note : Option String)
    (store : List SubmissionDoc) : Except HErr FinalizeOut × List SubmissionDoc :=
  match store.find? (idMatch submission_id) with
  | none => (.error ⟨404, "submission not found"⟩, store)
  | some doc =>
    if doc.finalized then (.ok ⟨submission_id, "FINALIZED", true⟩, store)
    else
      if (store.find? (finMatch doc.user_id)).any (fun e => e._id != submission_id) then
        (.error ⟨409, "finalized_submission_exists_for_user"⟩, store)
      else if (store.find? (updMatch submission_id)).isSome then
        (.ok ⟨submission_id, "FINALIZED", true⟩,
         updateFirst (updMatch submission_id) (finalizeApply note) store)
      else
        match (updateFirst (updMatch submission_id) (finalizeApply note) store).find?
            (idMatch submission_id) with
        | none =>
          (.error ⟨404, "submission not found"⟩,
           updateFirst (updMatch submission_id) (finalizeApply note) store)
        | some doc2 =>
          if doc2.finalized then
            (.ok ⟨submission_id, "FINALIZED", true⟩,
             updateFirst (updMatch submission_id) (finalizeApply note) store)
          else
            (.error ⟨409, "finalize_conflict"⟩,
             updateFirst (updMatch submission_id) (finalizeApply note) store)

/-- Mirror of the Pydantic `SubmissionCreate` request model: `language`
is whitespace-stripped with `min_length=1` and defaults to `"python"`;
`code` is a plain required `str` with no length constraint. -/
structure SubmissionCreate where
  language : String
  code : String
deriving DecidableEq, Repr

/-- Request-validation failures of the intake endpoint (Pydantic 422s). -/
inductive ValErr where
  | missingCode
  | emptyLanguage
deriving DecidableEq, Repr

/-- Python's `str.strip()`: drop leading and trailing whitespace. -/
def pyStrip (s : String) : String :=
  ⟨((s.toList.dropWhile Char.isWhitespace).reverse.dropWhile Char.isWhitespace).reverse⟩

/-- Pydantic validation of the intake request body: a missing `code`
field is rejected; a missing `language` defaults to `"python"`; a present
`language` is stripped and must be non-empty.  `code` is an
unconstrained `str`. -/
def validate_submission_create (language code : Option String) :
    Except ValErr SubmissionCreate :=
  match code with
  | none => .error .missingCode
  | some c =>
    match language with
    | none => .ok ⟨"python", c⟩
    | some l =>
      if pyStrip l == "" then .error .emptyLanguage else .ok ⟨pyStrip l, c⟩

/-- The dispatch message pushed onto the Redis queue by intake. -/
structure QueueMessage where
  submission_id : String
  language : String
deriving DecidableEq, Repr

/-- The document inserted by `create_submission` (submissions.py lines
172-185): note that the payload `code` is stored inline and the owner is
the hardcoded `"u1"`. -/
def createDoc (submission_id : String) (payload : SubmissionCreate) (now : Nat) :
    SubmissionDoc :=
  { _id := submission_id
    user_id := "u1"
    language := payload.language
    code := payload.code
    status := "QUEUED"
    score := 0
    fail_tags := []
    feedback := []
    metrics := {}
    finalized := false
    attempt := 1
    created_at := now
    updated_at := none
    finalize_note := none }

/-- `_save_submission_to_redis`: the payload-store write, returning the
Redis key and the hash mapping (submissions.py lines 101-121). -/
def save_submission_to_redis (submission_id : String) (payload : SubmissionCreate) :
    String × List (String × String) :=
  ("submission:" ++ submission_id,
   [("submission_id", submission_id), ("user_id", "u1"),
    ("language", payload.language), ("code", payload.code)])

/-- All externally visible effects of one successful intake call. -/
structure CreateEffects where
  doc : SubmissionDoc
  redisKey : String
  redisMapping : List (String × String)
  queueMessage : QueueMessage
  response : SubmissionQueued
deriving DecidableEq, Repr

/-- `create_submission` from submissions.py: validation followed by the
record insert, the payload-store write and the queue push.  A validation
error produces no effect at all. -/
def create_submission (language code : Option String) (submission_id : String)
    (now : Nat) : Except ValErr CreateEffects :=
  match validate_submission_create language code with
  | .error e => .error e
  | .ok payload =>
    let kv := save_submission_to_redis submission_id payload
    .ok { doc := createDoc submission_id payload now
          redisKey := kv.1
          redisMapping := kv.2
          queueMessage := ⟨submission_id, payload.language⟩
          response := ⟨submission_id, "QUEUED", 1, now⟩ }

/-- Number of finalized submissions owned by `u`. -/
def finalizedFor (store : List SubmissionDoc) (u : String) : Nat :=
  (store.filter (finMatch u)).length

/-- The one-finalized-submission-per-owner invariant. -/
def atMostOneFinalizedPerOwner (store : List SubmissionDoc) : Prop :=
  ∀ u, finalizedFor store u ≤ 1

/-- Total number of finalized submissions in the whole collection. -/
def totalFinalized (store : List SubmissionDoc) : Nat :=
  (store.filter (fun d => d.finalized)).length

/-! ## Scheduler (scheduler/scheduler.py) -/

/-- A Python value decoded by `json.loads`. -/
inductive Json where
  | null
  | bool (b : Bool)
  | num (n : Int)
  | str (s : String)
  | arr (elems : List Json)
  | obj (fields : List (String × Json))

/-- Uncaught Python runtime errors relevant to the scheduler loop. -/
inductive PyErr where
  | typeError
  | keyError
deriving DecidableEq, Repr

/-- Contiguous-sublist test, used to model Python's substring `in`. -/
def containsSublist {α : Type} [BEq α] (sub : List α) : List α → Bool
  | [] => sub.isEmpty
  | a :: t => sub.isPrefixOf (a :: t) || containsSublist sub t

/-- Python's `key in value` for a decoded JSON value: key membership on a
dict, element equality on a list, substring on a string, and a
`TypeError` on non-iterable values (numbers, booleans, `None`). -/
def pyContains (j : Json) (key : String) : Except PyErr Bool :=
  match j with
  | .obj fields => .ok (fields.any (fun kv => kv.1 == key))
  | .arr elems =>
    .ok (elems.any (fun e => match e with | .str s => s == key | _ => false))
  | .str s => .ok (containsSublist key.toList s.toList)
  | _ => .error .typeError

/-- Python's `value[key]` with a string key: dict lookup (`KeyError` when
absent), `TypeError` on every other value. -/
def pyGetItem (j : Json) (key : String) : Except PyErr Json :=
  match j with
  | .obj fields =>
    match fields.find? (fun kv => kv.1 == key) with
    | some kv => .ok kv.2
    | none => .error .keyError
  | _ => .error .typeError

/-- `pop_queue` from scheduler.py: `blpop` either times out (`none`) or
yields a raw message whose `json.loads` outcome is the oracle input.  A
parse failure is caught and dropped; then `"submission_id" not in data`
is evaluated, whose `TypeError` (non-container JSON) is NOT caught. -/
def pop_queue (item : Option (Except Unit Json)) : Except PyErr (Option Json) :=
  match item with
  | none => .ok none
  | some (.error _) => .ok none
  | some (.ok data) =>
    match pyContains data "submission_id" with
    | .error e => .error e
    | .ok false => .ok none
    | .ok true => .ok (some data)

/-- Kubernetes Job name built by `create_runner_job`:
`f"runner-{submission_id.lower().replace('_', '-')}"[:63]`. -/
def jobName (submission_id : String) : String :=
  ⟨("runner-".toList ++
      (submission_id.toList.map (fun c => if Char.toLower c = '_' then '-' else Char.toLower c))).take 63⟩

/-- The external effects of one iteration of the scheduler loop: worker
jobs admitted and messages pushed back onto the queue (the code never
re-enqueues, so `requeued` is empty on every path). -/
structure SchedStep where
  jobs : List String
  requeued : List Json

/-- One iteration of the scheduler `main` loop: `pop_queue`, then
`msg["submission_id"]` (outside any try/except), then
`create_runner_job` inside a try/except whose failures — including the
`AttributeError` from `.lower()` on a non-string id, folded into the
admission failure branch — are logged and dropped.  `admissionOk` is the
oracle for the Kubernetes `create_namespaced_job` call.  An uncaught
`PyErr` crashes the loop. -/
def scheduler_iteration (item : Option (Except Unit Json)) (admissionOk : Bool) :
    Except PyErr SchedStep :=
  match pop_queue item with
  | .error e => .error e
  | .ok none => .ok ⟨[], []⟩
  | .ok (some msg) =>
    match pyGetItem msg "submission_id" with
    | .error e => .error e
    | .ok v =>
      match v with
      | .str s => .ok ⟨if admissionOk then [jobName s] else [], []⟩
      | _ => .ok ⟨[], []⟩

/-! ## Worker (runner/runner.py) -/

/-- A structured outcome parsed out of the evaluator (LLM) response by
`call_llm` after its field validation. -/
structure LlmResult where
  status : String
  score : Int
  fail_tags : List String
  feedback : List FeedbackItem
deriving DecidableEq, Repr

/-- One call to `send_result_to_backend`: the body it posts to the
reconciler. -/
structure Report where
  status : String
  score : Int
  fail_tags : List String
  feedback : List FeedbackItem
  timeMs : Int
deriving DecidableEq, Repr

/-- How the worker process ends: a normal exit (exit code 0) or an
uncaught exception. -/
inductive RunExit where
  | normal
  | raised (msg : String)
deriving DecidableEq, Repr

/-- Observable behaviour of one worker run: how it exited and the
reconciler deliveries it attempted, in order. -/
structure RunOutcome where
  exit : RunExit
  deliveries : List Report
deriving DecidableEq, Repr

/-- Oracle environment of one worker run.  `redisHash` is the payload
hash (`HGETALL` yields `[]` when the key is absent); `httpOk n` tells
whether the n-th HTTP POST to the reconciler succeeds; `timeoutFires`
models the SIGALRM deadline preempting the evaluator call;
`llmOutcome` is the evaluator call (exceptions from transport, JSON
parsing and field validation collapse to `error`). -/
structure RunnerEnv where
  redisConnErr : Bool
  redisHash : List (String × String)
  timeoutFires : Bool
  llmOutcome : Except String LlmResult
  httpOk : List Bool
deriving Repr

/-- `send_result_to_backend` (runner.py lines 135-192): up to
`max_retries = 2` HTTP attempts with backoff; returns whether the call
succeeded (otherwise it raises) and the next global HTTP-attempt index. -/
def send_result (httpOk : List Bool) (n : Nat) : Bool × Nat :=
  if httpOk.getD n false then (true, n + 1)
  else if httpOk.getD (n + 1) false then (true, n + 2)
  else (false, n + 2)

/-- Outcome synthesized on a payload-store load failure
(runner.py lines 252-268). -/
def redisErrorReport : Report :=
  ⟨"FAILED", 0, ["redis_error"], [⟨"redis_error", "failed to load submission data from Redis"⟩], 0⟩

/-- Outcome synthesized when the loaded code is empty
(runner.py lines 270-286). -/
def dataErrorReport : Report :=
  ⟨"FAILED", 0, ["data_error"], [⟨"data_error", "code not found in Redis"⟩], 0⟩

/-- Outcome synthesized on an evaluator failure
(runner.py lines 295-311). -/
def llmErrorReport : Report :=
  ⟨"FAILED", 0, ["llm_error"], [⟨"llm_error", "LLM call failed while grading"⟩], 0⟩

/-- Outcome synthesized by the top-level catch-all handler
(runner.py lines 350-362). -/
def systemErrorReport : Report :=
  ⟨"FAILED", 0, ["system_error"], [⟨"system_error", "unexpected error"⟩], 0⟩

/-- Outcome synthesized when the 110-second deadline fires
(runner.py lines 206-233 and 334-348). -/
def timeoutReport : Report :=
  ⟨"TIMEOUT", 0, ["timeout"], [⟨"timeout", "grading exceeded 110 seconds"⟩], 110000⟩

/-- The delivery of a successful evaluator outcome. -/
def llmReport (llm : LlmResult) : Report :=
  ⟨llm.status, llm.score, llm.fail_tags, llm.feedback, 0⟩

/-- `main` of runner.py.  Every branch mirrors one handler of the source:
the inner per-step handlers synthesize FAILED outcomes and deliver them,
a delivery failure raises into the top-level handler which delivers a
`system_error` (or `TIMEOUT`) outcome, and a failure of even that last
delivery is swallowed so the process exits normally.  The SIGALRM
deadline is modelled as preempting the evaluator call: the handler
attempts a TIMEOUT delivery, raises `TimeoutError`, and the top-level
handler attempts the TIMEOUT delivery again.  Elapsed wall-clock times
are abstracted to 0 (and to the fixed 110000 ms of the timeout path). -/
def runnerMain (submission_id : Option String) (env : RunnerEnv) : RunOutcome :=
  match submission_id with
  | none => ⟨.raised "SUBMISSION_ID environment variable is not set", []⟩
  | some _ =>
    if env.redisConnErr || env.redisHash.isEmpty then
      if (send_result env.httpOk 0).1 then ⟨.normal, [redisErrorReport]⟩
      else ⟨.normal, [redisErrorReport, systemErrorReport]⟩
    else
      let code := (env.redisHash.lookup "code").getD ""
      if code == "" then
        if (send_result env.httpOk 0).1 then ⟨.normal, [dataErrorReport]⟩
        else ⟨.normal, [dataErrorReport, systemErrorReport]⟩
      else if env.timeoutFires then
        ⟨.normal, [timeoutReport, timeoutReport]⟩
      else
        match env.llmOutcome with
        | .error _ =>
          if (send_result env.httpOk 0).1 then ⟨.normal, [llmErrorReport]⟩
          else ⟨.normal, [llmErrorReport, systemErrorReport]⟩
        | .ok llm =>
          if (send_result env.httpOk 0).1 then ⟨.normal, [llmReport llm]⟩
          else ⟨.normal, [llmReport llm, systemErrorReport]⟩

/-- A failure anywhere in the worker's load/evaluate/deliver path. -/
def runnerFailure (env : RunnerEnv) : Prop :=
  env.redisConnErr = true ∨ env.redisHash = [] ∨
  (env.redisHash.lookup "code").getD "" = "" ∨ env.timeoutFires = true ∨
  (∃ e, env.llmOutcome = Except.error e) ∨
  (env.httpOk.getD 0 false = false ∧ env.httpOk.getD 1 false = false)

/-- A sample queued submission document, exactly as intake writes it. -/
def sampleQueuedDoc : SubmissionDoc := createDoc "s1" ⟨"python", "print(1)"⟩ 0

/-- A sample finalized submission document. -/
def sampleFinalizedDoc : SubmissionDoc :=
  { createDoc "s1" ⟨"python", "print(1)"⟩ 0 with status := "FINALIZED", finalized := true }

/-! ## List and store lemmas -/

theorem find?_first_of_stronger {α : Type} {q p : α → Bool} {l : List α} {x : α}
    (hq : l.find? q = some x) (hpx : p x = true)
    (himp : ∀ y, p y = true → q y = true) : l.find? p = some x := by
  induction l with
  | nil => simp at hq
  | cons a t ih =>
    cases hqa : q a with
    | true =>
      rw [List.find?_cons_of_pos _ hqa] at hq
      obtain rfl : a = x := by simpa using hq
      rw [List.find?_cons_of_pos _ hpx]
    | false =>
      rw [List.find?_cons_of_neg _ (by simp [hqa])] at hq
      have hpa : p a = false := by
        cases hpa : p a with
        | true => exact absurd (himp a hpa) (by simp [hqa])
        | false => rfl
      rw [List.find?_cons_of_neg _ (by simp [hpa])]
      exact ih hq

theorem find?_decomp {α : Type} {q : α → Bool} {l : List α} {x : α}
    (h : l.find? q = some x) :
    ∃ l₁ l₂, l = l₁ ++ x :: l₂ ∧ ∀ y ∈ l₁, q y = false := by
  induction l with
  | nil => simp at h
  | cons a t ih =>
    cases hqa : q a with
    | true =>
      rw [List.find?_cons_of_pos _ hqa] at h
      obtain rfl : a = x := by simpa using h
      exact ⟨[], t, rfl, by simp⟩
    | false =>
      rw [List.find?_cons_of_neg _ (by simp [hqa])] at h
      obtain ⟨l₁, l₂, rfl, hl₁⟩ := ih h
      refine ⟨a :: l₁, l₂, rfl, ?_⟩
      intro y hy
      rcases List.mem_cons.mp hy with rfl | hy
      · exact hqa
      · exact hl₁ y hy

theorem find?_append_cons {α : Type} (q : α → Bool) (l₁ : List α) (x : α) (l₂ : List α)
    (h1 : ∀ y ∈ l₁, q y = false) (hx : q x = true) :
    (l₁ ++ x :: l₂).find? q = some x := by
  induction l₁ with
  | nil => simpa using List.find?_cons_of_pos l₂ hx
  | cons a t ih =>
    have ha : q a = false := h1 a (by simp)
    rw [List.cons_append, List.find?_cons_of_neg _ (by simp [ha])]
    exact ih (fun y hy => h1 y (by simp [hy]))

theorem updateFirst_append {α : Type} (p : α → Bool) (f : α → α) (l₁ : List α) (x : α)
    (l₂ : List α) (h1 : ∀ y ∈ l₁, p y = false) (hx : p x = true) :
    updateFirst p f (l₁ ++ x :: l₂) = l₁ ++ f x :: l₂ := by
  induction l₁ with
  | nil => simp [updateFirst, hx]
  | cons a t ih =>
    have ha : p a = false := h1 a (by simp)
    simp [updateFirst, ha, ih (fun y hy => h1 y (by simp [hy]))]

theorem updateFirst_of_none {α : Type} (p : α → Bool) (f : α → α) (l : List α)
    (h : l.find? p = none) : updateFirst p f l = l := by
  induction l with
  | nil => rfl
  | cons a t ih =>
    cases hpa : p a with
    | true =>
      rw [List.find?_cons_of_pos _ hpa] at h
      exact absurd h (by simp)
    | false =>
      rw [List.find?_cons_of_neg _ (by simp [hpa])] at h
      simp [updateFirst, hpa, ih h]

theorem mem_updateFirst {α : Type} {p : α → Bool} {f : α → α} {l : List α} {d : α}
    (h : d ∈ updateFirst p f l) : d ∈ l ∨ ∃ y, y ∈ l ∧ d = f y := by
  induction l with
  | nil => simp [updateFirst] at h
  | cons a t ih =>
    cases hpa : p a with
    | true =>
      simp only [updateFirst, hpa, if_true, List.mem_cons] at h
      rcases h with h | h
      · exact Or.inr ⟨a, by simp, h⟩
      · exact Or.inl (by simp [h])
    | false =>
      simp only [updateFirst, hpa, Bool.false_eq_true, if_false, List.mem_cons] at h
      rcases h with h | h
      · exact Or.inl (by simp [h])
      · rcases ih h with h2 | ⟨y, hy, rfl⟩
        · exact Or.inl (by simp [h2])
        · exact Or.inr ⟨y, by simp [hy], rfl⟩

theorem id_unique_of_pairwise {l : List SubmissionDoc}
    (h : l.Pairwise (fun a b => a._id ≠ b._id)) :
    ∀ a ∈ l, ∀ b ∈ l, a._id = b._id → a = b := by
  induction l with
  | nil => simp
  | cons x t ih =>
    rw [List.pairwise_cons] at h
    intro a ha b hb hab
    rcases List.mem_cons.mp ha with ha1 | ha1
    · rcases List.mem_cons.mp hb with hb1 | hb1
      · rw [ha1, hb1]
      · exact absurd (ha1 ▸ hab) (h.1 b hb1)
    · rcases List.mem_cons.mp hb with hb1 | hb1
      · exact absurd (hb1 ▸ hab.symm) (h.1 a ha1)
      · exact ih h.2 a ha1 b hb1 hab

theorem finalizedFor_middle (l₁ l₂ : List SubmissionDoc) (x : SubmissionDoc) (u : String) :
    finalizedFor (l₁ ++ x :: l₂) u =
      finalizedFor l₁ u + (if finMatch u x then 1 else 0) + finalizedFor l₂ u := by
  unfold finalizedFor
  rw [List.filter_append, List.length_append, List.filter_cons]
  split
  · simp only [List.length_cons]
    omega
  · omega

theorem finalizedFor_eq_zero {l : List SubmissionDoc} {u : String}
    (h : ∀ d ∈ l, finMatch u d = false) : finalizedFor l u = 0 := by
  unfold finalizedFor
  rw [List.filter_eq_nil_iff.mpr (by intro d hd; simp [h d hd])]
  rfl

theorem doc_id_of_find? {store : List SubmissionDoc} {sid : String} {doc : SubmissionDoc}
    (hfind : store.find? (idMatch sid) = some doc) : doc._id = sid := by
  have h := List.find?_some hfind
  simpa [idMatch] using h

theorem finalize_fin_find_none
    {store : List SubmissionDoc} {sid : String} {doc : SubmissionDoc}
    (huniq : store.Pairwise (fun a b => a._id ≠ b._id))
    (hfind : store.find? (idMatch sid) = some doc)
    (hfin : doc.finalized = false)
    (hex : (store.find? (finMatch doc.user_id)).any (fun e => e._id != sid) = false) :
    store.find? (finMatch doc.user_id) = none := by
  cases hfm : store.find? (finMatch doc.user_id) with
  | none => rfl
  | some e =>
    exfalso
    rw [hfm] at hex
    have heid : e._id = sid := by simpa using hex
    have hemem := List.mem_of_find?_eq_some hfm
    have hefin : e.finalized = true := by
      have h := List.find?_some hfm
      simp [finMatch] at h
      exact h.2
    have hdocmem := List.mem_of_find?_eq_some hfind
    have hed : e = doc :=
      id_unique_of_pairwise huniq e hemem doc hdocmem (by rw [heid, doc_id_of_find? hfind])
    rw [hed, hfin] at hefin
    exact Bool.false_ne_true hefin

theorem updMatch_of_doc {sid : String} {doc : SubmissionDoc}
    (hid : doc._id = sid) (hfin : doc.finalized = false) : updMatch sid doc = true := by
  simp [updMatch, hid, hfin]

theorem find?_updMatch_eq {store : List SubmissionDoc} {sid : String} {doc : SubmissionDoc}
    (hfind : store.find? (idMatch sid) = some doc) (hfin : doc.finalized = false) :
    store.find? (updMatch sid) = some doc := by
  refine find?_first_of_stronger hfind (updMatch_of_doc (doc_id_of_find? hfind) hfin) ?_
  intro y hy
  simp [updMatch] at hy
  simp [idMatch, hy.1]

theorem finalize_keeps_invariant (sid : String) (note : Option String)
    (store : List SubmissionDoc)
    (huniq : store.Pairwise (fun a b => a._id ≠ b._id))
    (hinv : atMostOneFinalizedPerOwner store) :
    atMostOneFinalizedPerOwner (finalize_submission sid note store).2 := by
  unfold finalize_submission
  cases hfind : store.find? (idMatch sid) with
  | none => exact hinv
  | some doc =>
    dsimp only
    cases hfin : doc.finalized with
    | true =>
      rw [if_pos rfl]
      exact hinv
    | false =>
      rw [if_neg Bool.false_ne_true]
      cases hex : (store.find? (finMatch doc.user_id)).any (fun e => e._id != sid) with
      | true =>
        rw [if_pos rfl]
        exact hinv
      | false =>
        rw [if_neg Bool.false_ne_true]
        have hmatched := find?_updMatch_eq hfind hfin
        rw [if_pos (show (store.find? (updMatch sid)).isSome = true by rw [hmatched]; rfl)]
        obtain ⟨l₁, l₂, hsplit, hl₁⟩ := find?_decomp hfind
        subst hsplit
        have hl₁p : ∀ y ∈ l₁, updMatch sid y = false := by
          intro y hy
          have h := hl₁ y hy
          simp [idMatch] at h
          simp [updMatch, h]
        have hupd := updateFirst_append (updMatch sid) (finalizeApply note) l₁ doc l₂
          hl₁p (updMatch_of_doc (doc_id_of_find? hfind) hfin)
        dsimp only
        rw [hupd]
        have hnone := finalize_fin_find_none huniq hfind hfin hex
        have hall : ∀ d ∈ l₁ ++ doc :: l₂, finMatch doc.user_id d = false := by
          intro d hd
          have h := List.find?_eq_none.mp hnone d hd
          simpa using h
        intro u
        rw [finalizedFor_middle]
        by_cases hu : doc.user_id = u
        · subst hu
          have h1 : finalizedFor l₁ doc.user_id = 0 :=
            finalizedFor_eq_zero (fun d hd => hall d (List.mem_append_left _ hd))
          have h2 : finalizedFor l₂ doc.user_id = 0 :=
            finalizedFor_eq_zero (fun d hd => hall d (by simp [hd]))
          rw [h1, h2]
          simp [finMatch, finalizeApply]
        · have hcond : finMatch u (finalizeApply note doc) = false := by
            simp [finMatch, finalizeApply]
            intro h
            exact absurd h hu
          rw [hcond]
          have hle := hinv u
          rw [finalizedFor_middle] at hle
          have hdoccond : finMatch u doc = false := by simp [finMatch, hfin]
          rw [hdoccond] at hle
          simpa using hle

theorem post_result_keeps_invariant (resultToken : String) (now : Nat) (sid : String)
    (payload : ResultIn) (tok : Option String) (store : List SubmissionDoc)
    (hinv : atMostOneFinalizedPerOwner store) :
    atMostOneFinalizedPerOwner (post_result_callback resultToken now sid payload tok store).2 := by
  have hpreserve : atMostOneFinalizedPerOwner
      (updateFirst (updMatch sid) (reconcileApply payload now) store) := by
    cases hm : store.find? (updMatch sid) with
    | none =>
      rw [updateFirst_of_none _ _ _ hm]
      exact hinv
    | some d0 =>
      obtain ⟨l₁, l₂, hsplit, hl₁⟩ := find?_decomp hm
      subst hsplit
      rw [updateFirst_append (updMatch sid) (reconcileApply payload now) l₁ d0 l₂
        hl₁ (List.find?_some hm)]
      intro u
      have hle := hinv u
      rw [finalizedFor_middle] at hle
      rw [finalizedFor_middle]
      have hsame : finMatch u (reconcileApply payload now d0) = finMatch u d0 := rfl
      rw [hsame]
      exact hle
  unfold post_result_callback
  cases tok with
  | none => exact hinv
  | some t =>
    dsimp only
    by_cases ht : t = "" ∨ t ≠ resultToken
    · rw [if_pos ht]
      exact hinv
    · rw [if_neg ht]
      cases hfind : store.find? (idMatch sid) with
      | none => exact hinv
      | some doc =>
        dsimp only
        cases hshort : (doc.finalized || doc.status == "FINALIZED") with
        | true =>
          rw [if_pos rfl]
          exact hinv
        | false =>
          rw [if_neg Bool.false_ne_true]
          by_cases hmem : normalizeStatus payload.status ∈
              (["COMPLETED", "FAILED", "TIMEOUT"] : List String)
          · rw [if_pos hmem]
            cases hms : (store.find? (updMatch sid)).isSome with
            | true =>
              rw [if_pos rfl]
              exact hpreserve
            | false =>
              rw [if_neg Bool.false_ne_true]
              cases hms2 : (updateFirst (updMatch sid) (reconcileApply payload now) store).find?
                  (idMatch sid) with
              | some d => exact hpreserve
              | none => exact hpreserve
          · rw [if_neg hmem]
            exact hinv

theorem append_single_keeps_invariant (store : List SubmissionDoc) (d : SubmissionDoc)
    (hd : d.finalized = false) (hinv : atMostOneFinalizedPerOwner store) :
    atMostOneFinalizedPerOwner (store ++ [d]) := by
  intro u
  have h : finalizedFor (store ++ [d]) u = finalizedFor store u := by
    unfold finalizedFor
    rw [List.filter_append]
    have : List.filter (finMatch u) [d] = [] := by
      simp [finMatch, hd]
    rw [this, List.append_nil]
  rw [h]
  exact hinv u

/-! ## Claim theorems -/

/-- C1: for every submission whose stored record has `finalized == true`
(or status `FINALIZED`), a result-reconciliation call
`POST /submissions/{id}/result` with a valid shared secret changes no
field of the record and returns 200 with the record's current status. -/
theorem reconcile_after_finalize_is_noop
    (resultToken : String) (now : Nat) (sid : String) (payload : ResultIn)
    (store : List SubmissionDoc) (doc : SubmissionDoc)
    (htok : resultToken ≠ "")
    (hfind : store.find? (idMatch sid) = some doc)
    (hfin : doc.finalized = true ∨ doc.status = "FINALIZED") :
    post_result_callback resultToken now sid payload (some resultToken) store =
      (Except.ok ⟨true, sid, doc.status⟩, store) := by
  unfold post_result_callback
  dsimp only
  rw [if_neg (show ¬(resultToken = "" ∨ resultToken ≠ resultToken) by simp [htok])]
  rw [hfind]
  dsimp only
  rw [if_pos (show (doc.finalized || doc.status == "FINALIZED") = true by
    rcases hfin with h | h
    · simp [h]
    · simp [h])]

/-- Witness for C1 at a concrete finalized document. -/
theorem reconcile_after_finalize_is_noop_witness :
    post_result_callback "secret" 7 "s1" ⟨"COMPLETED", 95, [], [], {}⟩ (some "secret")
        [sampleFinalizedDoc] =
      (Except.ok ⟨true, "s1", "FINALIZED"⟩, [sampleFinalizedDoc]) := by
  have h := reconcile_after_finalize_is_noop "secret" 7 "s1" ⟨"COMPLETED", 95, [], [], {}⟩
    [sampleFinalizedDoc] sampleFinalizedDoc (by decide) (by decide) (Or.inl (by decide))
  exact h

/-- Every successful finalize call returns the fixed `FinalizeOut` and
leaves a finalized document under the id in the resulting store. -/
theorem finalize_ok_shape
    {sid : String} {note : Option String} {store store2 : List SubmissionDoc}
    {out : FinalizeOut}
    (h : finalize_submission sid note store = (Except.ok out, store2)) :
    out = ⟨sid, "FINALIZED", true⟩ ∧
    ∃ d2, store2.find? (idMatch sid) = some d2 ∧ d2.finalized = true := by
  unfold finalize_submission at h
  cases hfind : store.find? (idMatch sid) with
  | none =>
    rw [hfind] at h
    exact absurd h (by simp)
  | some doc =>
    rw [hfind] at h
    dsimp only at h
    by_cases hfin : doc.finalized = true
    · rw [if_pos hfin] at h
      rw [Prod.mk.injEq] at h
      obtain ⟨h1, h2⟩ := h
      subst h2
      refine ⟨(Except.ok.injEq _ _).mp h1.symm, doc, hfind, hfin⟩
    · rw [if_neg hfin] at h
      by_cases hex : ((store.find? (finMatch doc.user_id)).any (fun e => e._id != sid)) = true
      · rw [if_pos hex] at h
        exact absurd h (by simp)
      · rw [if_neg hex] at h
        have hfin2 : doc.finalized = false := by
          revert hfin
          cases doc.finalized <;> simp
        have hmatched := find?_updMatch_eq hfind hfin2
        rw [if_pos (show (store.find? (updMatch sid)).isSome = true by rw [hmatched]; rfl)] at h
        rw [Prod.mk.injEq] at h
        obtain ⟨h1, h2⟩ := h
        obtain ⟨l₁, l₂, hsplit, hl₁⟩ := find?_decomp hfind
        subst hsplit
        have hl₁p : ∀ y ∈ l₁, updMatch sid y = false := by
          intro y hy
          have hidy := hl₁ y hy
          simp [idMatch] at hidy
          simp [updMatch, hidy]
        have hupd := updateFirst_append (updMatch sid) (finalizeApply note) l₁ doc l₂
          hl₁p (updMatch_of_doc (doc_id_of_find? hfind) hfin2)
        rw [hupd] at h2
        subst h2
        refine ⟨(Except.ok.injEq _ _).mp h1.symm, finalizeApply note doc, ?_, rfl⟩
        refine find?_append_cons _ _ _ _ (fun y hy => hl₁ y hy) ?_
        have := doc_id_of_find? hfind
        simp [idMatch, finalizeApply, this]

/-- C7: calling finalize twice on the same existing submission id is
idempotent: the second call returns `{status=FINALIZED, finalized=true}`
without error and leaves the submission record unchanged. -/
theorem finalize_twice_idempotent
    (sid : String) (note note2 : Option String) (store store2 : List SubmissionDoc)
    (out : FinalizeOut)
    (h : finalize_submission sid note store = (Except.ok out, store2)) :
    out = ⟨sid, "FINALIZED", true⟩ ∧
    finalize_submission sid note2 store2 =
      (Except.ok ⟨sid, "FINALIZED", true⟩, store2) := by
  obtain ⟨hout, d2, hfind2, hfin2⟩ := finalize_ok_shape h
  refine ⟨hout, ?_⟩
  unfold finalize_submission
  rw [hfind2]
  dsimp only
  rw [if_pos hfin2]

/-- Witness for C7: finalize a queued document, then finalize again. -/
theorem finalize_twice_idempotent_witness :
    (⟨"s1", "FINALIZED", true⟩ : FinalizeOut) = ⟨"s1", "FINALIZED", true⟩ ∧
    finalize_submission "s1" none [finalizeApply (some "n") sampleQueuedDoc] =
      (Except.ok ⟨"s1", "FINALIZED", true⟩, [finalizeApply (some "n") sampleQueuedDoc]) :=
  finalize_twice_idempotent "s1" (some "n") none [sampleQueuedDoc]
    [finalizeApply (some "n") sampleQueuedDoc] ⟨"s1", "FINALIZED", true⟩ rfl

/-- Reduction of a reconciliation call on a non-finalized document with a
valid token: the outcome depends only on the normalized status. -/
theorem post_result_not_finalized_reduce
    (resultToken : String) (now : Nat) (sid : String) (payload : ResultIn)
    (store : List SubmissionDoc) (doc : SubmissionDoc)
    (htok : resultToken ≠ "")
    (hfind : store.find? (idMatch sid) = some doc)
    (hfin : doc.finalized = false) (hstat : doc.status ≠ "FINALIZED") :
    post_result_callback resultToken now sid payload (some resultToken) store =
      if normalizeStatus payload.status ∈ (["COMPLETED", "FAILED", "TIMEOUT"] : List String) then
        (Except.ok ⟨true, sid, normalizeStatus payload.status⟩,
         updateFirst (updMatch sid) (reconcileApply payload now) store)
      else
        (Except.error ⟨400, "invalid status: " ++ normalizeStatus payload.status⟩, store) := by
  unfold post_result_callback
  dsimp only
  rw [if_neg (show ¬(resultToken = "" ∨ resultToken ≠ resultToken) by simp [htok])]
  rw [hfind]
  dsimp only
  rw [if_neg (show ¬((doc.finalized || doc.status == "FINALIZED") = true) by
    simp [hfin, hstat])]
  by_cases hmem : normalizeStatus payload.status ∈
      (["COMPLETED", "FAILED", "TIMEOUT"] : List String)
  · rw [if_pos hmem, if_pos hmem]
    rw [if_pos (show (store.find? (updMatch sid)).isSome = true by
      rw [find?_updMatch_eq hfind hfin]; rfl)]
  · rw [if_neg hmem, if_neg hmem]

/-- A reconciliation call only sees the status through `pyUpper`. -/
theorem post_result_congr (resultToken : String) (now : Nat) (sid : String)
    (tok : Option String) (store : List SubmissionDoc) {s₁ s₂ : String}
    (sc : Int) (ft : List String) (fb : List FeedbackItem) (m : Metrics)
    (h : pyUpper s₁ = pyUpper s₂) :
    post_result_callback resultToken now sid ⟨s₁, sc, ft, fb, m⟩ tok store =
    post_result_callback resultToken now sid ⟨s₂, sc, ft, fb, m⟩ tok store := by
  have hn : normalizeStatus s₁ = normalizeStatus s₂ := by
    unfold normalizeStatus
    rw [h]
  have happ : reconcileApply ⟨s₁, sc, ft, fb, m⟩ now = reconcileApply ⟨s₂, sc, ft, fb, m⟩ now := by
    funext d
    unfold reconcileApply
    dsimp only
    rw [hn]
  unfold post_result_callback
  dsimp only
  rw [hn, happ]

/-- C3: for every result-reconciliation call on a non-finalized
submission, the incoming status is accepted case-insensitively, the
synonyms `SUCCESS` and `SUCCESSED` are mapped to `COMPLETED`, and any
normalized value outside `{COMPLETED, FAILED, TIMEOUT}` is rejected with
a 400 client error with no write to the submission record. -/
theorem reconcile_status_normalization
    (resultToken : String) (now : Nat) (sid : String) (store : List SubmissionDoc)
    (doc : SubmissionDoc) (htok : resultToken ≠ "")
    (hfind : store.find? (idMatch sid) = some doc)
    (hfin : doc.finalized = false) (hstat : doc.status ≠ "FINALIZED") :
    (∀ s₁ s₂ sc ft fb m, pyUpper s₁ = pyUpper s₂ →
      post_result_callback resultToken now sid ⟨s₁, sc, ft, fb, m⟩ (some resultToken) store =
      post_result_callback resultToken now sid ⟨s₂, sc, ft, fb, m⟩ (some resultToken) store) ∧
    (∀ s sc ft fb m, pyUpper s = "SUCCESS" ∨ pyUpper s = "SUCCESSED" →
      (post_result_callback resultToken now sid ⟨s, sc, ft, fb, m⟩
          (some resultToken) store).1 = Except.ok ⟨true, sid, "COMPLETED"⟩) ∧
    (∀ payload, normalizeStatus payload.status ∉
        (["COMPLETED", "FAILED", "TIMEOUT"] : List String) →
      post_result_callback resultToken now sid payload (some resultToken) store =
        (Except.error ⟨400, "invalid status: " ++ normalizeStatus payload.status⟩, store)) := by
  refine ⟨?_, ?_, ?_⟩
  · intro s₁ s₂ sc ft fb m h
    exact post_result_congr resultToken now sid (some resultToken) store sc ft fb m h
  · intro s sc ft fb m h
    have hn : normalizeStatus s = "COMPLETED" := by
      unfold normalizeStatus
      rcases h with h | h <;> rw [h] <;> rfl
    rw [post_result_not_finalized_reduce resultToken now sid ⟨s, sc, ft, fb, m⟩ store doc
      htok hfind hfin hstat]
    have hn2 : normalizeStatus (⟨s, sc, ft, fb, m⟩ : ResultIn).status = "COMPLETED" := hn
    rw [hn2, if_pos (by simp)]
  · intro payload hbad
    rw [post_result_not_finalized_reduce resultToken now sid payload store doc
      htok hfind hfin hstat]
    rw [if_neg hbad]

/-- Witness for C3: a lowercase synonym is accepted as COMPLETED and an
unknown status is rejected with 400 and no write. -/
theorem reconcile_status_normalization_witness :
    (post_result_callback "secret" 3 "s1" ⟨"successed", 95, [], [], {}⟩ (some "secret")
        [sampleQueuedDoc]).1 = Except.ok ⟨true, "s1", "COMPLETED"⟩ ∧
    post_result_callback "secret" 3 "s1" ⟨"weird", 0, [], [], {}⟩ (some "secret")
        [sampleQueuedDoc] =
      (Except.error ⟨400, "invalid status: WEIRD"⟩, [sampleQueuedDoc]) := by
  have h := reconcile_status_normalization "secret" 3 "s1" [sampleQueuedDoc] sampleQueuedDoc
    (by decide) (by decide) (by decide) (by decide)
  refine ⟨h.2.1 "successed" 95 [] [] {} (Or.inr (by decide)), ?_⟩
  have h400 := h.2.2 ⟨"weird", 0, [], [], {}⟩ (by decide)
  rw [h400]
  rfl

/-- C2: at most one submission per owner has `finalized == true` at any
time — the invariant is preserved by intake inserts, by reconciliation
calls and by finalize calls — and a finalize call on a non-finalized
submission whose owner already has a different submission with
`finalized == true` is rejected with 409
`finalized_submission_exists_for_user` and writes nothing. -/
theorem finalize_one_finalized_per_owner
    (store : List SubmissionDoc) (sid : String) (note : Option String)
    (huniq : store.Pairwise (fun a b => a._id ≠ b._id))
    (hinv : atMostOneFinalizedPerOwner store) :
    atMostOneFinalizedPerOwner (finalize_submission sid note store).2 ∧
    (∀ resultToken now payload tok,
      atMostOneFinalizedPerOwner
        (post_result_callback resultToken now sid payload tok store).2) ∧
    (∀ sid2 payload now,
      atMostOneFinalizedPerOwner (store ++ [createDoc sid2 payload now])) ∧
    (∀ doc e, store.find? (idMatch sid) = some doc → doc.finalized = false →
      e ∈ store → e.user_id = doc.user_id → e.finalized = true → e._id ≠ sid →
      finalize_submission sid note store =
        (Except.error ⟨409, "finalized_submission_exists_for_user"⟩, store)) := by
  refine ⟨finalize_keeps_invariant sid note store huniq hinv,
    fun resultToken now payload tok =>
      post_result_keeps_invariant resultToken now sid payload tok store hinv,
    fun sid2 payload now =>
      append_single_keeps_invariant store (createDoc sid2 payload now) rfl hinv,
    ?_⟩
  intro doc e hfind hfin hemem heu hefin heid
  have hany : ((store.find? (finMatch doc.user_id)).any (fun e => e._id != sid)) = true := by
    cases hfm : store.find? (finMatch doc.user_id) with
    | none =>
      exfalso
      have hfme : finMatch doc.user_id e = true := by simp [finMatch, heu, hefin]
      exact absurd hfme (by simpa using List.find?_eq_none.mp hfm e hemem)
    | some e0 =>
      have he0mem := List.mem_of_find?_eq_some hfm
      have he0fin : e0.finalized = true := by
        have h := List.find?_some hfm
        simp [finMatch] at h
        exact h.2
      have hne : e0._id ≠ sid := by
        intro hcontra
        have hdocmem := List.mem_of_find?_eq_some hfind
        have heq : e0 = doc := id_unique_of_pairwise huniq e0 he0mem doc hdocmem
          (by rw [hcontra, doc_id_of_find? hfind])
        rw [heq, hfin] at he0fin
        exact Bool.false_ne_true he0fin
      simpa using hne
  unfold finalize_submission
  rw [hfind]
  dsimp only
  rw [if_neg (by simp [hfin]), if_pos hany]

/-- Witness for C2: two documents of the same owner, the first already
finalized; finalizing the second is rejected with 409 and the invariant
holds before and after every operation exercised. -/
theorem finalize_one_finalized_per_owner_witness :
    atMostOneFinalizedPerOwner
      (finalize_submission "s2" none
        [sampleFinalizedDoc, createDoc "s2" ⟨"python", "x"⟩ 1]).2 ∧
    finalize_submission "s2" none
        [sampleFinalizedDoc, createDoc "s2" ⟨"python", "x"⟩ 1] =
      (Except.error ⟨409, "finalized_submission_exists_for_user"⟩,
       [sampleFinalizedDoc, createDoc "s2" ⟨"python", "x"⟩ 1]) := by
  have huniq : List.Pairwise (fun a b => a._id ≠ b._id)
      [sampleFinalizedDoc, createDoc "s2" ⟨"python", "x"⟩ 1] := by
    decide
  have hinv : atMostOneFinalizedPerOwner
      [sampleFinalizedDoc, createDoc "s2" ⟨"python", "x"⟩ 1] := by
    intro u
    unfold finalizedFor
    by_cases hu : u = "u1"
    · subst hu; decide
    · have h1 : finMatch u sampleFinalizedDoc = false := by
        simp [finMatch, sampleFinalizedDoc, createDoc]
        intro hcontra
        exact absurd hcontra.symm hu
      have h2 : finMatch u (createDoc "s2" ⟨"python", "x"⟩ 1) = false := by
        simp [finMatch, createDoc]
      simp [h1, h2]
  have h := finalize_one_finalized_per_owner
    [sampleFinalizedDoc, createDoc "s2" ⟨"python", "x"⟩ 1] "s2" none huniq hinv
  refine ⟨h.1, h.2.2.2 (createDoc "s2" ⟨"python", "x"⟩ 1) sampleFinalizedDoc
    (by decide) (by decide) (by decide) (by decide) (by decide) (by decide)⟩

/-- The store after a finalize call is either untouched or the result of
the single conditional update. -/
theorem finalize_store_shape (sid : String) (note : Option String)
    (store : List SubmissionDoc) :
    (finalize_submission sid note store).2 = store ∨
    (finalize_submission sid note store).2 =
      updateFirst (updMatch sid) (finalizeApply note) store := by
  unfold finalize_submission
  cases store.find? (idMatch sid) with
  | none => exact Or.inl rfl
  | some doc =>
    dsimp only
    by_cases h1 : doc.finalized = true
    · rw [if_pos h1]; exact Or.inl rfl
    · rw [if_neg h1]
      by_cases h2 : ((store.find? (finMatch doc.user_id)).any (fun e => e._id != sid)) = true
      · rw [if_pos h2]; exact Or.inl rfl
      · rw [if_neg h2]
        by_cases h3 : (store.find? (updMatch sid)).isSome = true
        · rw [if_pos h3]; exact Or.inr rfl
        · rw [if_neg h3]
          cases (updateFirst (updMatch sid) (finalizeApply note) store).find? (idMatch sid) with
          | none => exact Or.inr rfl
          | some d2 =>
            dsimp only
            by_cases h4 : d2.finalized = true
            · rw [if_pos h4]; exact Or.inr rfl
            · rw [if_neg h4]; exact Or.inr rfl

/-- Finalize never changes the owner of any stored document. -/
theorem finalize_keeps_all_u1 (sid : String) (note : Option String)
    (store : List SubmissionDoc) (hall : ∀ d ∈ store, d.user_id = "u1") :
    ∀ d ∈ (finalize_submission sid note store).2, d.user_id = "u1" := by
  rcases finalize_store_shape sid note store with h | h <;> rw [h]
  · exact hall
  · intro d hd
    rcases mem_updateFirst hd with hmem | ⟨y, hy, rfl⟩
    · exact hall d hmem
    · exact hall y hy

/-- When every document is owned by `"u1"`, the global finalized count
coincides with the owner `"u1"` count. -/
theorem totalFinalized_eq_finalizedFor_u1 {store : List SubmissionDoc}
    (hall : ∀ d ∈ store, d.user_id = "u1") :
    totalFinalized store = finalizedFor store "u1" := by
  unfold totalFinalized finalizedFor
  congr 1
  apply List.filter_congr
  intro d hd
  simp [finMatch, hall d hd]

/-- When every document is owned by `"u1"`, a global finalized count of
at most one gives the per-owner invariant. -/
theorem atMostOne_of_all_u1 {store : List SubmissionDoc}
    (hall : ∀ d ∈ store, d.user_id = "u1")
    (h : totalFinalized store ≤ 1) : atMostOneFinalizedPerOwner store := by
  intro u
  by_cases hu : u = "u1"
  · subst hu
    rw [← totalFinalized_eq_finalizedFor_u1 hall]
    exact h
  · have hz : finalizedFor store u = 0 := by
      apply finalizedFor_eq_zero
      intro d hd
      simp [finMatch, hall d hd]
      intro hcontra
      exact absurd hcontra.symm hu
    rw [hz]
    exact Nat.zero_le 1

/-- C10: every submission created by intake carries the hardcoded owner
`user_id = "u1"` in both the durable record and the payload-store entry;
consequently the finalizer's one-finalized-per-owner check spans all
submissions, so at most one submission in the entire store can ever
become finalized through the finalizer. -/
theorem hardcoded_owner_u1
    (store : List SubmissionDoc) (sid : String) (note : Option String)
    (huniq : store.Pairwise (fun a b => a._id ≠ b._id))
    (hall : ∀ d ∈ store, d.user_id = "u1")
    (htot : totalFinalized store ≤ 1) :
    (∀ sid2 payload now, (createDoc sid2 payload now).user_id = "u1" ∧
      (save_submission_to_redis sid2 payload).2.lookup "user_id" = some "u1") ∧
    (∀ d ∈ (finalize_submission sid note store).2, d.user_id = "u1") ∧
    totalFinalized (finalize_submission sid note store).2 ≤ 1 := by
  have hall2 := finalize_keeps_all_u1 sid note store hall
  refine ⟨fun sid2 payload now => ⟨rfl, rfl⟩, hall2, ?_⟩
  rw [totalFinalized_eq_finalizedFor_u1 hall2]
  exact finalize_keeps_invariant sid note store huniq (atMostOne_of_all_u1 hall htot) "u1"

/-- Witness for C10: finalizing a second submission in a store that
already holds a finalized one leaves the global finalized count at one. -/
theorem hardcoded_owner_u1_witness :
    (createDoc "s9" ⟨"go", "x"⟩ 2).user_id = "u1" ∧
    (save_submission_to_redis "s9" ⟨"go", "x"⟩).2.lookup "user_id" = some "u1" ∧
    totalFinalized
      (finalize_submission "s2" none
        [sampleFinalizedDoc, createDoc "s2" ⟨"python", "x"⟩ 1]).2 ≤ 1 := by
  have h := hardcoded_owner_u1
    [sampleFinalizedDoc, createDoc "s2" ⟨"python", "x"⟩ 1] "s2" none
    (by decide) (by decide) (by decide)
  exact ⟨(h.1 "s9" ⟨"go", "x"⟩ 2).1, (h.1 "s9" ⟨"go", "x"⟩ 2).2, h.2.2⟩

/-- C9 (amended): the durable record written by intake stores the payload
inline in its `code` field; the payload additionally lives in the Payload
Store under the key `submission:{id}` derived from the submission id. -/
theorem intake_record_payload_inline
    (sid : String) (payload : SubmissionCreate) (now : Nat) :
    (createDoc sid payload now).code = payload.code ∧
    (save_submission_to_redis sid payload).1 = "submission:" ++ sid ∧
    (save_submission_to_redis sid payload).2.lookup "code" = some payload.code :=
  ⟨rfl, rfl, rfl⟩

/-- Counterexample to C9 as stated: at a concrete intake call the durable
record does contain the non-empty payload inline. -/
theorem intake_record_payload_inline_cex :
    (createDoc "s1" ⟨"python", "print(1)"⟩ 0).code = "print(1)" ∧
    ("print(1)" : String) ≠ "" :=
  ⟨rfl, by decide⟩

/-- C6 (amended): intake rejects a missing code field, and an empty or
whitespace-only language, with a client error that produces no record,
no payload-store entry and no queue message; an empty code string,
however, passes validation and produces the full set of effects. -/
theorem intake_validation
    (l : String) (c : Option String) (sid : String) (now : Nat)
    (hl : pyStrip l = "") :
    create_submission (some l) c sid now =
      Except.error (match c with | none => ValErr.missingCode | some _ => ValErr.emptyLanguage) ∧
    (∀ code sid2 now2, (create_submission (some "python") (some code) sid2 now2).isOk = true) := by
  constructor
  · cases c with
    | none => rfl
    | some c0 =>
      unfold create_submission validate_submission_create
      dsimp only
      rw [if_pos (show (pyStrip l == "") = true by rw [hl]; rfl)]
  · intro code sid2 now2
    rfl

/-- Witness for C6: a whitespace language is rejected while an empty code
is accepted. -/
theorem intake_validation_witness :
    create_submission (some " ") (some "x") "s1" 0 = Except.error ValErr.emptyLanguage ∧
    (create_submission (some "python") (some "") "s2" 1).isOk = true := by
  have h := intake_validation " " (some "x") "s1" 0 (by decide)
  exact ⟨h.1, h.2 "" "s2" 1⟩

/-- Counterexample to C6 as stated: an empty payload is not rejected —
the record, payload-store entry and queue message are all produced. -/
theorem intake_accepts_empty_code_cex :
    create_submission (some "python") (some "") "s1" 0 =
      Except.ok
        { doc := createDoc "s1" ⟨"python", ""⟩ 0
          redisKey := "submission:s1"
          redisMapping := [("submission_id", "s1"), ("user_id", "u1"),
            ("language", "python"), ("code", "")]
          queueMessage := ⟨"s1", "python"⟩
          response := ⟨"s1", "QUEUED", 1, 0⟩ } := rfl

/-- C5 (amended): a worker run whose payload is absent from the Payload
Store synthesizes a `FAILED` outcome tagged `redis_error` (not
`data_error`) and delivers it first; a run whose loaded code is empty
synthesizes a `FAILED` outcome tagged `data_error` and delivers it
first. -/
theorem runner_missing_or_empty_payload (sid : String) (env : RunnerEnv)
    (hconn : env.redisConnErr = false) :
    (env.redisHash = [] →
      (runnerMain (some sid) env).deliveries.head? = some redisErrorReport ∧
      redisErrorReport.status = "FAILED" ∧ redisErrorReport.fail_tags = ["redis_error"]) ∧
    (env.redisHash ≠ [] → (env.redisHash.lookup "code").getD "" = "" →
      (runnerMain (some sid) env).deliveries.head? = some dataErrorReport ∧
      dataErrorReport.status = "FAILED" ∧ dataErrorReport.fail_tags = ["data_error"]) := by
  constructor
  · intro hempty
    refine ⟨?_, rfl, rfl⟩
    unfold runnerMain
    dsimp only
    rw [if_pos (show (env.redisConnErr || env.redisHash.isEmpty) = true by
      rw [hconn, hempty]; rfl)]
    by_cases hs : (send_result env.httpOk 0).1 = true
    · rw [if_pos hs]
      rfl
    · rw [if_neg hs]
      rfl
  · intro hne hcode
    refine ⟨?_, rfl, rfl⟩
    unfold runnerMain
    dsimp only
    rw [if_neg (show ¬((env.redisConnErr || env.redisHash.isEmpty) = true) by
      simp [hconn, hne])]
    rw [if_pos (show ((env.redisHash.lookup "code").getD "" == "") = true by
      rw [hcode]; rfl)]
    by_cases hs : (send_result env.httpOk 0).1 = true
    · rw [if_pos hs]
      rfl
    · rw [if_neg hs]
      rfl

/-- Witness for C5 (amended): an absent hash and an empty-code hash. -/
theorem runner_missing_or_empty_payload_witness :
    (runnerMain (some "s1")
      ⟨false, [], false, Except.ok ⟨"COMPLETED", 100, [], []⟩, [true]⟩).deliveries.head? =
        some redisErrorReport ∧
    (runnerMain (some "s1")
      ⟨false, [("code", "")], false, Except.ok ⟨"COMPLETED", 100, [], []⟩, [true]⟩).deliveries.head? =
        some dataErrorReport := by
  have h1 := runner_missing_or_empty_payload "s1"
    ⟨false, [], false, Except.ok ⟨"COMPLETED", 100, [], []⟩, [true]⟩ rfl
  have h2 := runner_missing_or_empty_payload "s1"
    ⟨false, [("code", "")], false, Except.ok ⟨"COMPLETED", 100, [], []⟩, [true]⟩ rfl
  exact ⟨(h1.1 rfl).1, (h2.2 (by decide) rfl).1⟩

/-- Counterexample to C5 as stated: with the payload absent, the sole
delivered outcome is tagged `redis_error`, not `data_error`. -/
theorem runner_absent_payload_cex :
    (runnerMain (some "s1")
      ⟨false, [], false, Except.ok ⟨"COMPLETED", 100, [], []⟩, [true]⟩).deliveries =
      [redisErrorReport] ∧
    redisErrorReport.fail_tags = ["redis_error"] ∧
    (["redis_error"] : List String) ≠ ["data_error"] :=
  ⟨rfl, rfl, by decide⟩

/-- C4: for every worker execution with `SUBMISSION_ID` set, every
failure in the load/evaluate/deliver path is caught at top level; the
worker attempts at least one delivery, and on any failure one of the
attempted deliveries carries a `FAILED` or `TIMEOUT` outcome; even when
the top-level fallback delivery fails the worker exits normally without
re-raising. -/
theorem worker_always_delivers (sid : String) (env : RunnerEnv) :
    (runnerMain (some sid) env).exit = RunExit.normal ∧
    1 ≤ (runnerMain (some sid) env).deliveries.length ∧
    (runnerFailure env →
      ∃ r ∈ (runnerMain (some sid) env).deliveries,
        r.status = "FAILED" ∨ r.status = "TIMEOUT") := by
  unfold runnerMain
  dsimp only
  by_cases h1 : (env.redisConnErr || env.redisHash.isEmpty) = true
  · rw [if_pos h1]
    by_cases hs : (send_result env.httpOk 0).1 = true
    · rw [if_pos hs]
      exact ⟨rfl, by simp, fun _ => ⟨redisErrorReport, by simp, Or.inl rfl⟩⟩
    · rw [if_neg hs]
      exact ⟨rfl, by simp, fun _ => ⟨redisErrorReport, by simp, Or.inl rfl⟩⟩
  · rw [if_neg h1]
    by_cases h2 : ((env.redisHash.lookup "code").getD "" == "") = true
    · rw [if_pos h2]
      by_cases hs : (send_result env.httpOk 0).1 = true
      · rw [if_pos hs]
        exact ⟨rfl, by simp, fun _ => ⟨dataErrorReport, by simp, Or.inl rfl⟩⟩
      · rw [if_neg hs]
        exact ⟨rfl, by simp, fun _ => ⟨dataErrorReport, by simp, Or.inl rfl⟩⟩
    · rw [if_neg h2]
      by_cases h3 : env.timeoutFires = true
      · rw [if_pos h3]
        exact ⟨rfl, by simp, fun _ => ⟨timeoutReport, by simp, Or.inr rfl⟩⟩
      · rw [if_neg h3]
        cases hle : env.llmOutcome with
        | error e =>
          dsimp only
          by_cases hs : (send_result env.httpOk 0).1 = true
          · rw [if_pos hs]
            exact ⟨rfl, by simp, fun _ => ⟨llmErrorReport, by simp, Or.inl rfl⟩⟩
          · rw [if_neg hs]
            exact ⟨rfl, by simp, fun _ => ⟨llmErrorReport, by simp, Or.inl rfl⟩⟩
        | ok llm =>
          dsimp only
          by_cases hs : (send_result env.httpOk 0).1 = true
          · rw [if_pos hs]
            refine ⟨rfl, by simp, fun hf => absurd hf ?_⟩
            rintro (hf | hf | hf | hf | ⟨e, hf⟩ | ⟨hf0, hf1⟩)
            · exact h1 (by rw [hf]; rfl)
            · exact h1 (by rw [hf]; simp)
            · exact h2 (by rw [hf]; rfl)
            · exact h3 hf
            · rw [hle] at hf
              exact Except.noConfusion hf
            · refine absurd hs ?_
              unfold send_result
              rw [hf0, hf1]
              simp
          · rw [if_neg hs]
            exact ⟨rfl, by simp, fun _ => ⟨systemErrorReport, by simp, Or.inl rfl⟩⟩

/-- Witness for C4: an evaluator failure still ends in a normal exit with
a FAILED delivery attempted, even though every HTTP attempt fails. -/
theorem worker_always_delivers_witness :
    (runnerMain (some "s1")
      ⟨false, [("code", "x")], false, Except.error "boom", []⟩).exit = RunExit.normal ∧
    ∃ r ∈ (runnerMain (some "s1")
        ⟨false, [("code", "x")], false, Except.error "boom", []⟩).deliveries,
      r.status = "FAILED" ∨ r.status = "TIMEOUT" := by
  have h := worker_always_delivers "s1" ⟨false, [("code", "x")], false, Except.error "boom", []⟩
  exact ⟨h.1, h.2.2 (Or.inr (Or.inr (Or.inr (Or.inr (Or.inl ⟨"boom", rfl⟩)))))⟩

/-- C8 (amended): the scheduler drops — without admitting a job and
without re-enqueueing — a pop timeout, an unparseable message, and a
parsed message that supports membership testing but lacks the
`submission_id` field; but a message parsing to a JSON number, boolean
or null makes the uncaught membership test raise a `TypeError` that
crashes the loop. -/
theorem scheduler_malformed_messages :
    (∀ b, scheduler_iteration none b = Except.ok ⟨[], []⟩) ∧
    (∀ e b, scheduler_iteration (some (Except.error e)) b = Except.ok ⟨[], []⟩) ∧
    (∀ j b, pyContains j "submission_id" = Except.ok false →
      scheduler_iteration (some (Except.ok j)) b = Except.ok ⟨[], []⟩) ∧
    (∀ n b, scheduler_iteration (some (Except.ok (Json.num n))) b =
      Except.error PyErr.typeError) ∧
    (∀ bv b, scheduler_iteration (some (Except.ok (Json.bool bv))) b =
      Except.error PyErr.typeError) ∧
    (∀ b, scheduler_iteration (some (Except.ok Json.null)) b =
      Except.error PyErr.typeError) := by
  refine ⟨fun b => rfl, fun e b => rfl, ?_, fun n b => rfl, fun bv b => rfl, fun b => rfl⟩
  intro j b h
  unfold scheduler_iteration pop_queue
  dsimp only
  rw [h]

/-- Witness for C8 (amended): a pop timeout and a field-less object are
dropped with the loop intact; a JSON number crashes it. -/
theorem scheduler_malformed_messages_witness :
    scheduler_iteration none true = Except.ok ⟨[], []⟩ ∧
    scheduler_iteration (some (Except.ok (Json.obj [("x", Json.null)]))) true =
      Except.ok ⟨[], []⟩ ∧
    scheduler_iteration (some (Except.ok (Json.num 5))) true =
      Except.error PyErr.typeError := by
  have h := scheduler_malformed_messages
  exact ⟨h.1 true, h.2.2.1 (Json.obj [("x", Json.null)]) true rfl, h.2.2.2.1 5 true⟩

/-- Counterexample to C8 as stated: a parseable message lacking the
`submission_id` field (a bare JSON number) does not make the scheduler
drop it and continue — the iteration raises an uncaught `TypeError`. -/
theorem scheduler_crashes_on_non_container_cex :
    scheduler_iteration (some (Except.ok (Json.num 5))) true =
      Except.error PyErr.typeError ∧
    ∀ step : SchedStep, Except.error PyErr.typeError ≠ Except.ok step :=
  ⟨rfl, fun _ h => Except.noConfusion h⟩
